import Mathlib

/-!
Verification of the VideoQueryAI retrieval core.

Shallow embedding of the chunk/timestamp aligner of this repository (`chunker.py`),
the ChromaDB-backed Q&A module (`qa.py`) and the FAISS-backed replacement
(`faiss_qa.py`), together with theorems settling the specification claims.

Python floats are modelled as `ℚ`, Python strings as `String` (processed as
their `List Char` data so that everything kernel-reduces), Python lists as
`List`, and Python dicts (which preserve insertion order) as association
lists with insert-or-replace update. External collaborators (the ChromaDB
nearest-neighbour search, the BM25 scoring library, the LLM call) enter the
model as explicit inputs: the repository code that consumes their outputs is
translated line by line.
-/

namespace VideoQueryAI

/-- Python `str.lower()` (ASCII-adequate model). -/
def lowerChars (l : List Char) : List Char :=
  l.map Char.toLower

/-- Python `str.strip()`: drop leading and trailing whitespace. -/
def trimChars (l : List Char) : List Char :=
  ((l.dropWhile Char.isWhitespace).reverse.dropWhile Char.isWhitespace).reverse

/-- Worker for `pySplitWS`: `acc` is the current word, reversed. -/
def splitWSAux : List Char → List Char → List (List Char)
  | [], acc => if acc.isEmpty then [] else [acc.reverse]
  | c :: cs, acc =>
    if c.isWhitespace then
      if acc.isEmpty then splitWSAux cs [] else acc.reverse :: splitWSAux cs []
    else splitWSAux cs (c :: acc)

/-- Python `s.split()` (no argument): split on whitespace runs, no empties. -/
def pySplitWS (s : List Char) : List (List Char) :=
  splitWSAux s []

/-- Python `s.lower().split()`, used for BM25 tokenisation in `qa.py`. -/
def pyTokenize (s : String) : List (List Char) :=
  pySplitWS (lowerChars s.toList)

/-- Python substring containment `pat in hay`. -/
def strIn (pat hay : List Char) : Bool :=
  hay.tails.any (fun t => pat.isPrefixOf t)

/-- Python `l[-n:]`. -/
def takeLast {α : Type} (n : ℕ) (l : List α) : List α :=
  l.drop (l.length - n)

/-- Python space-join of a word list. -/
def joinSp (ws : List (List Char)) : List Char :=
  List.intercalate [Char.ofNat 32] ws

/-- A transcript segment as read from the transcription JSON
(`segment.get(...)` fields used by `chunker.find_chunk_timestamps`). -/
structure Segment where
  start_time : String
  end_time : String
  start_seconds : ℚ
  end_seconds : ℚ
  text : String
deriving DecidableEq

/-- The timestamp-range dictionary returned by `find_chunk_timestamps`. -/
structure TimeRange where
  start_time : String
  end_time : String
  start_seconds : ℚ
  end_seconds : ℚ
deriving DecidableEq

/-- The lower-cased, stripped segment text field read in `chunker.py`. -/
def segNormText (s : String) : List Char :=
  trimChars (lowerChars s.toList)

/-- One iteration of the best-matching-segment loops in
`find_chunk_timestamps` (`chunker.py` lines 44-58 and 61-75): `window` is
`chunk_words[:10]` (resp. `chunk_words[-10:]`), `phr` the joined
first-5-words (resp. last-5-words) phrase, and the state is
`(best_score, best_segment)`. -/
def segMatchStep (window : List (List Char)) (phr : List Char)
    (st : ℕ × Option Segment) (seg : Segment) : ℕ × Option Segment :=
  let segment_text := segNormText seg.text
  let st1 := if strIn phr segment_text ∧ st.1 < phr.length
    then (phr.length, some seg) else st
  let words_match := window.countP (fun w => (pySplitWS segment_text).contains w)
  if 3 ≤ words_match ∧ st1.1 < words_match then (words_match, some seg) else st1

/-- `chunker.find_chunk_timestamps`: map the text of a chunk back to a
timestamp range by bag-of-words matching against the segments. -/
def findChunkTimestamps (chunk_text : String) (segments : List Segment) : TimeRange :=
  match segments with
  | [] => ⟨"0:00:00", "0:00:00", 0, 0⟩
  | first :: _ =>
    let chunk_words := pySplitWS (trimChars (lowerChars chunk_text.toList))
    if chunk_words.length < 3 then
      ⟨first.start_time, first.end_time, first.start_seconds, first.end_seconds⟩
    else
      let first_phrase := joinSp (chunk_words.take 5)
      let last_phrase := joinSp (takeLast 5 chunk_words)
      let startRes := segments.foldl (segMatchStep (chunk_words.take 10) first_phrase) (0, none)
      let endRes := segments.foldl (segMatchStep (takeLast 10 chunk_words) last_phrase) (0, none)
      match startRes.2, endRes.2 with
      | some sseg, some eseg =>
        ⟨sseg.start_time, eseg.end_time, sseg.start_seconds, eseg.end_seconds⟩
      | _, _ =>
        match segments.find? (fun seg =>
            decide (min 5 (chunk_words.length / 2) ≤
              chunk_words.countP (fun w => (pySplitWS (segNormText seg.text)).contains w))) with
        | some seg => ⟨seg.start_time, seg.end_time, seg.start_seconds, seg.end_seconds⟩
        | none =>
          ⟨first.start_time, first.end_time, first.start_seconds, first.end_seconds⟩

/-- The cleaned metadata dictionary built in `qa.add_chunks_to_chromadb`
(lines 72-83). -/
structure Meta where
  chunk_id : ℤ
  video_title : String
  video_url : String
  uploader : String
  word_count : ℤ
  start_time : String
  end_time : String
  start_seconds : ℚ
  end_seconds : ℚ
  duration : ℚ
deriving DecidableEq

/-- A raw chunk as loaded from the chunks JSON file; every field the code
reads with presence checks or `.get` defaults is optional. -/
structure RawChunk where
  unique_id : Option String
  embedding : Option (List ℚ)
  text : Option String
  chunk_id : Option ℤ
  video_title : Option String
  video_url : Option String
  uploader : Option String
  word_count : Option ℤ
  start_time : Option String
  end_time : Option String
  start_seconds : Option ℚ
  end_seconds : Option ℚ
  duration : Option ℚ
deriving DecidableEq

/-- A raw chunk with no fields set, to be updated per test case. -/
def RawChunk.blank : RawChunk :=
  ⟨none, none, none, none, none, none, none, none, none, none, none, none, none⟩

/-- One stored record of a ChromaDB collection: id, document, embedding
and metadata, kept in insertion order. -/
structure DocEntry where
  id : String
  document : String
  embedding : List ℚ
  metadata : Meta
deriving DecidableEq

/-- `metadata = {...}` from `qa.add_chunks_to_chromadb` lines 72-83;
`i` is the enumeration index (default for `chunk_id`). -/
def mkMeta (i : ℕ) (c : RawChunk) : Meta where
  chunk_id := c.chunk_id.getD i
  video_title := c.video_title.getD "Unknown"
  video_url := c.video_url.getD ""
  uploader := c.uploader.getD "Unknown"
  word_count := c.word_count.getD 0
  start_time := c.start_time.getD "Unknown"
  end_time := c.end_time.getD "Unknown"
  start_seconds := c.start_seconds.getD 0
  end_seconds := c.end_seconds.getD 0
  duration := c.duration.getD 0

/-- The validation loop of `qa.add_chunks_to_chromadb` (lines 45-93):
chunks missing `unique_id`, `embedding` or `text` are skipped; the rest
yield parallel ids/embeddings/documents/metadatas, modelled as entries.
(The `isinstance(embedding, list)` check cannot fail in the model, where
an embedding is always a list of rationals.) -/
def processChunks (chunks : List RawChunk) : List DocEntry :=
  chunks.enum.filterMap (fun p =>
    match p.2.unique_id, p.2.embedding, p.2.text with
    | some uid, some emb, some txt => some ⟨uid, txt, emb, mkMeta p.1 p.2⟩
    | _, _, _ => none)

/-- External `collection.add` semantics (ChromaDB): append records whose
ids are not already present in the collection. -/
def chromaAdd (coll : List DocEntry) (entries : List DocEntry) : List DocEntry :=
  entries.foldl (fun acc e => if acc.any (fun x => x.id = e.id) then acc else acc ++ [e]) coll

/-- The `_bm25_cache` entry built by `qa.build_bm25_index` (lines 169-174):
the `BM25Okapi` object is represented by the tokenised documents it was
constructed from. -/
structure BM25Cache where
  bm25 : List (List (List Char))
  documents : List String
  metadatas : List Meta
  ids : List String
deriving DecidableEq

/-- Module state of `qa.py` for one collection name: the persisted
ChromaDB collection plus the slot of this collection in the global
`_bm25_cache`. -/
structure QAState where
  collection : List DocEntry
  cache : Option BM25Cache
deriving DecidableEq

/-- `qa.add_chunks_to_chromadb`: validate chunks, then add them to the
collection in batches of 50 (the batch loop adds the very same slices
back-to-back, so its net effect on the stored collection is a single
`chromaAdd` of all processed entries). Returns `none` exactly when the
code returns `None` (no valid chunks). The BM25 cache is not touched. -/
def addChunksToChromadb (s : QAState) (chunks : List RawChunk) : Option Unit × QAState :=
  let entries := processChunks chunks
  if entries.length = 0 then (none, s)
  else (some (), { s with collection := chromaAdd s.collection entries })

/-- `qa.build_bm25_index`: serve the cached index when one exists,
otherwise build one from all documents currently in the collection
(`collection.get()`), cache and return it; `none` when the collection
has no documents. -/
def buildBM25Index (s : QAState) : Option BM25Cache × QAState :=
  match s.cache with
  | some c => (some c, s)
  | none =>
    let docs := s.collection.map (fun e => e.document)
    if docs = [] then (none, s)
    else
      let c : BM25Cache :=
        ⟨docs.map pyTokenize, docs, s.collection.map (fun e => e.metadata),
          s.collection.map (fun e => e.id)⟩
      (some c, { s with cache := some c })

/-- The result shape (ids, documents, metadatas, distances) used both for
ChromaDB query results and for the value
returned by `qa.search_videos` (the singleton outer nesting of the Python
dict-of-list-of-lists is dropped). -/
structure SearchResult where
  ids : List String
  documents : List String
  metadatas : List Meta
  distances : List ℚ
deriving DecidableEq

/-- Ascending cosine distance, the order of ChromaDB query results. -/
def distAsc (a b : DocEntry × ℚ) : Prop :=
  a.2 ≤ b.2

instance : DecidableRel distAsc :=
  fun a b => inferInstanceAs (Decidable (a.2 ≤ b.2))

instance : IsTotal (DocEntry × ℚ) distAsc :=
  ⟨fun a b => le_total a.2 b.2⟩

instance : IsTrans (DocEntry × ℚ) distAsc :=
  ⟨fun _ _ _ hab hbc => le_trans hab hbc⟩

/-- External `collection.query` semantics (ChromaDB): the stored entries
paired with the externally computed cosine distances to the embedded query
(`qdists`), ranked by ascending distance, top `k`. -/
def chromaQuery (coll : List DocEntry) (qdists : List ℚ) (k : ℕ) : SearchResult :=
  let sorted := (List.insertionSort distAsc (coll.zip qdists)).take k
  ⟨sorted.map (fun p => p.1.id), sorted.map (fun p => p.1.document),
   sorted.map (fun p => p.1.metadata), sorted.map (fun p => p.2)⟩

/-- `np.argsort` over BM25 scores (ascending; ties in some fixed order). -/
def argsortAsc (scores : List ℚ) : List ℕ :=
  (List.insertionSort (fun a b : ℕ × ℚ => a.2 ≤ b.2) scores.enum).map (fun p => p.1)

instance : DecidableRel (fun a b : ℕ × ℚ => a.2 ≤ b.2) :=
  fun a b => inferInstanceAs (Decidable (a.2 ≤ b.2))

/-- `qa.search_videos` lines 197-211: take the `k` highest-scoring BM25
indices (`np.argsort(bm25_scores)[::-1][:k]`) and keep ids/documents of
those with strictly positive score. `scores` is the output of the external
`bm25.get_scores(tokenized_query)` call, parallel to the cached documents. -/
def bm25Top (c : BM25Cache) (scores : List ℚ) (k : ℕ) : List String × List String :=
  let top_indices := (argsortAsc scores).reverse.take k
  let hits := top_indices.filter (fun i => decide (0 < scores.getD i 0))
  (hits.map (fun i => c.ids.getD i ""), hits.map (fun i => c.documents.getD i ""))

/-- One value of the `combined_docs` dict in `qa.search_videos`
(lines 219-223): text, metadata and the running fused score. -/
structure PoolEntry where
  text : String
  metadata : Meta
  score : ℚ
deriving DecidableEq

/-- First-match association-list lookup (`doc_id in combined_docs` /
`combined_docs[doc_id]`). -/
def dlookup (k : String) : List (String × PoolEntry) → Option PoolEntry
  | [] => none
  | p :: ps => if p.1 = k then some p.2 else dlookup k ps

/-- Python dict assignment `combined_docs[doc_id] = v`: replace in place if
the key exists, else append (dicts preserve insertion order). -/
def dictInsert (d : List (String × PoolEntry)) (k : String) (v : PoolEntry) :
    List (String × PoolEntry) :=
  if (dlookup k d).isSome then d.map (fun p => if p.1 = k then (p.1, v) else p)
  else d ++ [(k, v)]

/-- `qa.search_videos` lines 217-223: seed `combined_docs` from the vector
results; the entry score is `1.0 - distance`. `quads` is the enumerated
zip of ids/documents/metadatas/distances. -/
def buildPool (quads : List (String × String × Meta × ℚ)) : List (String × PoolEntry) :=
  quads.foldl (fun d q => dictInsert d q.1 ⟨q.2.1, q.2.2.1, 1 - q.2.2.2⟩) []

/-- `qa.search_videos` lines 227-229: one BM25 hit boosts an existing
score of an existing candidate by 0.5; ids absent from the pool are ignored. -/
def boostStep (d : List (String × PoolEntry)) (k : String) : List (String × PoolEntry) :=
  if (dlookup k d).isSome then
    d.map (fun p => if p.1 = k then (p.1, ⟨p.2.text, p.2.metadata, p.2.score + 1/2⟩) else p)
  else d

/-- The BM25 boosting loop over the BM25 result ids. -/
def boostPool (d : List (String × PoolEntry)) (bm25Ids : List String) :
    List (String × PoolEntry) :=
  bm25Ids.foldl boostStep d

/-- `combined_docs` after both fusion phases of `qa.search_videos`
(lines 213-229), including the emptiness gates on
the vector-result documents and the BM25-result documents. -/
def fusedPool (vecIds vecDocs : List String) (vecMetas : List Meta) (vecDists : List ℚ)
    (bm25Ids bm25Docs : List String) : List (String × PoolEntry) :=
  let quads := vecIds.zip (vecDocs.zip (vecMetas.zip vecDists))
  let pool := if vecDocs = [] then [] else buildPool quads
  if bm25Docs = [] then pool else boostPool pool bm25Ids

/-- Descending fused score, the sort key of
the Python call to sorted with the score key and reverse=True; that sort is
stable, as is `List.insertionSort` with this relation. -/
def scoreDesc (a b : String × PoolEntry) : Prop :=
  b.2.score ≤ a.2.score

instance : DecidableRel scoreDesc :=
  fun a b => inferInstanceAs (Decidable (b.2.score ≤ a.2.score))

instance : IsTotal (String × PoolEntry) scoreDesc :=
  ⟨fun a b => le_total b.2.score a.2.score⟩

instance : IsTrans (String × PoolEntry) scoreDesc :=
  ⟨fun _ _ _ hab hbc => le_trans hbc hab⟩

/-- `qa.search_videos` lines 213-247: fuse vector and BM25 results, sort by
descending fused score, truncate to `n_results` and re-export
ids/documents/metadatas with `distance = 1.0 - score`. -/
def searchFusion (vecIds vecDocs : List String) (vecMetas : List Meta) (vecDists : List ℚ)
    (bm25Ids bm25Docs : List String) (n : ℕ) : SearchResult :=
  let pool := fusedPool vecIds vecDocs vecMetas vecDists bm25Ids bm25Docs
  let sorted := (List.insertionSort scoreDesc pool).take n
  ⟨sorted.map (fun p => p.1), sorted.map (fun p => p.2.text),
   sorted.map (fun p => p.2.metadata), sorted.map (fun p => 1 - p.2.score)⟩

/-- `qa.search_videos`: vector query (for `2 * n_results` candidates), lazy
BM25 build, fusion. `qdists` are the external cosine distances of the query
to each stored entry; `scores` the external BM25 scores over the cached
documents. Any exception yields the all-empty result (lines 248-250); in
the model every branch is total. -/
def searchVideos (s : QAState) (qdists scores : List ℚ) (n : ℕ) : SearchResult × QAState :=
  let vres := chromaQuery s.collection qdists (n * 2)
  let built := buildBM25Index s
  let bmLists := match built.1 with
    | none => ([], [])
    | some c => bm25Top c scores (n * 2)
  (searchFusion vres.ids vres.documents vres.metadatas vres.distances
    bmLists.1 bmLists.2 n, built.2)

/-- The metadata dictionary built in `faiss_qa.FAISSVectorStore.add_chunks`
(lines 50-59). -/
structure FaissMeta where
  video_title : String
  video_url : String
  start_time : String
  end_time : String
  start_seconds : ℚ
  uploader : String
  word_count : ℤ
  chunk_id : ℤ
deriving DecidableEq

/-- `metadata = {...}` from `faiss_qa.add_chunks`; `i` is the loop index. -/
def mkFaissMeta (i : ℕ) (c : RawChunk) : FaissMeta where
  video_title := c.video_title.getD "Unknown"
  video_url := c.video_url.getD ""
  start_time := c.start_time.getD "Unknown"
  end_time := c.end_time.getD "Unknown"
  start_seconds := c.start_seconds.getD 0
  uploader := c.uploader.getD "Unknown"
  word_count := c.word_count.getD 0
  chunk_id := c.chunk_id.getD i

/-- The on-disk state of one FAISS collection: the pickled
documents/metadatas/ids/count (the FAISS index file holds the same
`count` embeddings). -/
structure FaissCollection where
  documents : List String
  metadatas : List FaissMeta
  ids : List String
  count : ℕ
deriving DecidableEq

/-- The per-chunk validity check of `faiss_qa.add_chunks` (lines 40-43):
the embedding read with an empty-list default must be non-empty (truthiness)
and of dimension 384. -/
def faissChunkValid (c : RawChunk) : Bool :=
  decide (c.embedding.getD [] ≠ [] ∧ (c.embedding.getD []).length = 384)

/-- `faiss_qa.FAISSVectorStore.add_chunks`: build a **fresh** index and
metadata snapshot from the chunks file alone and write them, overwriting
whatever was stored for the collection before. Returns `False` (leaving
the store untouched) when there are no chunks or no valid ones. -/
def faissAddChunks (store : Option FaissCollection) (chunks : List RawChunk) :
    Bool × Option FaissCollection :=
  if chunks.length = 0 then (false, store)
  else
    let valid := chunks.enum.filter (fun p => faissChunkValid p.2)
    if valid.length = 0 then (false, store)
    else
      (true, some ⟨valid.map (fun p => p.2.text.getD ""),
        valid.map (fun p => mkFaissMeta p.1 p.2),
        valid.map (fun p => p.2.unique_id.getD (s!"chunk_{p.1}")),
        valid.length⟩)

/-- Result shape of `faiss_qa.FAISSVectorStore.search`. -/
structure FaissSearchResult where
  documents : List String
  metadatas : List FaissMeta
  ids : List String
  distances : List ℚ
deriving DecidableEq

/-- `faiss_qa.FAISSVectorStore.search`: empty result when the collection
files do not exist; otherwise format the external `index.search` output
(`topScores`, `topIndices`) with `distance = 1.0 - score` and bounds-checked
indexing into the pickled lists. -/
def faissSearch (store : Option FaissCollection) (topScores : List ℚ)
    (topIndices : List ℕ) : FaissSearchResult :=
  match store with
  | none => ⟨[], [], [], []⟩
  | some c =>
    ⟨(topIndices.filter (fun i => i < c.documents.length)).map (fun i => c.documents.getD i ""),
     (topIndices.filter (fun i => i < c.metadatas.length)).map
       (fun i => c.metadatas.getD i (mkFaissMeta 0 RawChunk.blank)),
     (topIndices.filter (fun i => i < c.ids.length)).map (fun i => c.ids.getD i ""),
     topScores.map (fun s => 1 - s)⟩

/-- A single-quote character, written without a character literal. -/
def apos : String :=
  (Char.ofNat 39).toString

/-- `"=" * 50`. -/
def eqBar : String :=
  String.join (List.replicate 50 "=")

/-- Python `sep.join(l)` on strings. -/
def pyJoin (sep : String) : List String → String
  | [] => ""
  | [x] => x
  | x :: xs => x ++ sep ++ pyJoin sep xs

/-- Python `s.strip()`. -/
def pyStrip (s : String) : String :=
  ⟨trimChars s.toList⟩

/-- Python `int(x)` on a float: truncation toward zero. -/
def pyInt (q : ℚ) : ℤ :=
  Int.tdiv q.num q.den

/-- The citation built per retrieved chunk in `qa.answer_question`
(lines 273-279) and identically in `faiss_qa.answer_question`
(lines 213-219): the parts gated on `metadata.get(...)` truthiness. -/
def mkCitation (i : ℕ) (title st url : String) (ss : ℚ) : String :=
  let c0 := s!"Source {i + 1}: " ++ apos ++ title ++ apos
  let c1 := if st ≠ "" then c0 ++ s!" at {st}" else c0
  if url ≠ "" ∧ ss ≠ 0 then c1 ++ " (" ++ url ++ s!"&t={pyInt ss}s)" else c1

/-- The citation list of `qa.answer_question` (loop over
the result documents, indexing the parallel metadatas). -/
def buildCitationsQA (results : SearchResult) : List String :=
  (results.documents.zip results.metadatas).enum.map (fun p =>
    mkCitation p.1 p.2.2.video_title p.2.2.start_time p.2.2.video_url p.2.2.start_seconds)

/-- The citation list of `faiss_qa.answer_question` (same loop over the
FAISS result shape). -/
def buildCitationsFaiss (results : FaissSearchResult) : List String :=
  (results.documents.zip results.metadatas).enum.map (fun p =>
    mkCitation p.1 p.2.2.video_title p.2.2.start_time p.2.2.video_url p.2.2.start_seconds)

/-- Recogniser for one occurrence of the pattern `\[Source \d+\]` at the
head of the character list; returns the remainder on a match. -/
def matchSourceRef (l : List Char) : Option (List Char) :=
  let pre := "[Source ".toList
  if pre.isPrefixOf l then
    let rest := l.drop pre.length
    let digits := rest.takeWhile Char.isDigit
    match rest.drop digits.length with
    | c :: tail => if digits ≠ [] ∧ c = Char.ofNat 93 then some tail else none
    | [] => none
  else none

/-- Fuel-indexed worker for `stripSourceRefs`; the fuel is the input
length, and every step consumes at least one character. -/
def stripRefsAux : ℕ → List Char → List Char
  | 0, l => l
  | _ + 1, [] => []
  | fuel + 1, c :: cs =>
    match matchSourceRef (c :: cs) with
    | some rest => stripRefsAux fuel rest
    | none => c :: stripRefsAux fuel cs

/-- The Python regex substitution deleting every bracketed Source-number
reference from the answer. -/
def stripSourceRefs (s : String) : String :=
  ⟨stripRefsAux s.toList.length s.toList⟩

/-- The successful-LLM response assembly shared verbatim by
`qa.answer_question` (lines 302-309) and `faiss_qa.answer_question`
(lines 248-257): strip the content, remove `[Source N]` references,
append the separator bar and the citations. -/
def llmSuccessResponse (content : String) (citations : List String) : String :=
  let answer := pyStrip (stripSourceRefs (pyStrip content))
  answer ++ "\n\n" ++ eqBar ++ "\nSources:\n" ++ pyJoin "\n" citations

/-- `qa.answer_question` given the retrieval result and the outcome of the
external LLM call: an LLM exception escapes to the outer handler, which
returns the bare `"Error generating answer: ..."` string (line 314). The
prompt assembly feeding the LLM is absorbed into the external call. -/
def qaAnswerQuestion (llmResp : Except String String) (results : SearchResult) : String :=
  if results.documents = [] then "No relevant information found."
  else
    let citations := buildCitationsQA results
    match llmResp with
    | Except.error e => s!"Error generating answer: {e}"
    | Except.ok content => llmSuccessResponse content citations

/-- `faiss_qa.answer_question`: same shape, but the LLM call sits in an
inner `try`, whose handler (lines 259-265) builds a template answer from
the top two retrieved chunk texts plus the citations. -/
def faissAnswerQuestion (llmResp : Except String String) (results : FaissSearchResult) :
    String :=
  if results.documents = [] then "No relevant information found."
  else
    let citations := buildCitationsFaiss results
    match llmResp with
    | Except.ok content => llmSuccessResponse content citations
    | Except.error _ =>
      let simple := "Based on the video content:\n\n" ++ pyJoin " " (results.documents.take 2)
      simple ++ "\n\n" ++ eqBar ++ "\nSources:\n" ++ pyJoin "\n" citations

/-- The two-segment transcript of the concrete alignment scenario of the spec. -/
def scenarioSegs : List Segment :=
  [⟨"0:00:00", "0:00:05", 0, 5, "hello world today"⟩,
   ⟨"0:00:05", "0:00:12", 5, 12, "we discuss rockets"⟩]

/-- Transcript with a gap, used to exhibit an inverted aligned range. -/
def gapSegs : List Segment :=
  [⟨"0:00:00", "0:00:02", 0, 2, "hello world friends"⟩,
   ⟨"0:00:10", "0:00:12", 10, 12, "rockets are cool"⟩]

/-- A chunk whose opening words occur only in the later segment and with
closing words occurring only in the earlier one. -/
def gapChunkText : String :=
  "rockets are cool one two three four five six seven eight nine hello world friends"

/-- A minimal valid chunk for the ChromaDB add path. -/
def qaChunkRaw (uid : String) : RawChunk :=
  { RawChunk.blank with
    unique_id := some uid, embedding := some [1], text := some ("doc " ++ uid) }

/-- Ten valid chunks with ids `a0`..`a9`. -/
def batchA : List RawChunk :=
  (List.range 10).map (fun i => qaChunkRaw ("a" ++ toString i))

/-- Ten valid chunks with ids `b0`..`b9`. -/
def batchB : List RawChunk :=
  (List.range 10).map (fun i => qaChunkRaw ("b" ++ toString i))

/-- The concrete spec scenario as a state trace: add ten chunks, run a
lexical-index build (as the first `search()` would), then add ten more
chunks to the same collection. -/
def staleState : QAState :=
  (addChunksToChromadb
    (buildBM25Index (addChunksToChromadb ⟨[], none⟩ batchA).2).2
    batchB).2

/-- A minimal valid chunk for the FAISS add path (384-dimensional
embedding). -/
def faissChunkRaw (uid : String) : RawChunk :=
  { RawChunk.blank with
    unique_id := some uid, embedding := some (List.replicate 384 1),
    text := some ("doc " ++ uid) }

/-- Ten valid FAISS chunks with ids `fa0`..`fa9`. -/
def fBatchA : List RawChunk :=
  (List.range 10).map (fun i => faissChunkRaw ("fa" ++ toString i))

/-- Ten valid FAISS chunks with ids `fb0`..`fb9`. -/
def fBatchB : List RawChunk :=
  (List.range 10).map (fun i => faissChunkRaw ("fb" ++ toString i))

/-- The FAISS store after two successive `add_chunks` calls of ten valid
chunks each for the same collection. -/
def faissTwice : Option FaissCollection :=
  (faissAddChunks (faissAddChunks none fBatchA).2 fBatchB).2

end VideoQueryAI

namespace VideoQueryAI

theorem segMatchStep_snd_cases (w : List (List Char)) (p : List Char)
    (st : ℕ × Option Segment) (seg : Segment) :
    (segMatchStep w p st seg).2 = st.2 ∨ (segMatchStep w p st seg).2 = some seg := by
  simp only [segMatchStep]
  split_ifs <;> simp

theorem foldl_segMatchStep_snd (w : List (List Char)) (p : List Char) :
    ∀ (l : List Segment) (st : ℕ × Option Segment),
      (l.foldl (segMatchStep w p) st).2 = st.2 ∨
        ∃ s ∈ l, (l.foldl (segMatchStep w p) st).2 = some s := by
  intro l
  induction l with
  | nil => intro st; exact Or.inl rfl
  | cons a as ih =>
    intro st
    rw [List.foldl_cons]
    rcases ih (segMatchStep w p st a) with h | ⟨s, hs, h⟩
    · rcases segMatchStep_snd_cases w p st a with h2 | h2
      · exact Or.inl (h.trans h2)
      · exact Or.inr ⟨a, List.mem_cons_self a as, h.trans h2⟩
    · exact Or.inr ⟨s, List.mem_cons_of_mem a hs, h⟩

theorem findChunkTimestamps_shape (t : String) (first : Segment) (rest : List Segment) :
    ∃ i ∈ first :: rest, ∃ j ∈ first :: rest,
      (findChunkTimestamps t (first :: rest)).start_seconds = i.start_seconds ∧
      (findChunkTimestamps t (first :: rest)).end_seconds = j.end_seconds := by
  have hfirst : first ∈ first :: rest := List.mem_cons_self first rest
  simp only [findChunkTimestamps]
  split_ifs with hlen
  · exact ⟨first, hfirst, first, hfirst, rfl, rfl⟩
  · rcases hS : (List.foldl (segMatchStep
        ((pySplitWS (trimChars (lowerChars t.toList))).take 10)
        (joinSp ((pySplitWS (trimChars (lowerChars t.toList))).take 5)))
        (0, none) (first :: rest)).2 with _ | sseg
    · rcases hF : List.find? (fun seg =>
          decide (min 5 ((pySplitWS (trimChars (lowerChars t.toList))).length / 2) ≤
            List.countP (fun w => (pySplitWS (segNormText seg.text)).contains w)
              (pySplitWS (trimChars (lowerChars t.toList))))) (first :: rest)
          with _ | seg
      · simp only [hS, hF]
        exact ⟨first, hfirst, first, hfirst, rfl, rfl⟩
      · have hmem := List.mem_of_find?_eq_some hF
        simp only [hS, hF]
        exact ⟨seg, hmem, seg, hmem, rfl, rfl⟩
    · have hsmem : sseg ∈ first :: rest := by
        rcases foldl_segMatchStep_snd _ _ (first :: rest) (0, none) with h | ⟨s, hs, h⟩
        · rw [hS] at h; exact absurd h (by simp)
        · rw [hS] at h
          obtain rfl : s = sseg := by injection h with h2; exact h2.symm
          exact hs
      rcases hE : (List.foldl (segMatchStep
          (takeLast 10 (pySplitWS (trimChars (lowerChars t.toList))))
          (joinSp (takeLast 5 (pySplitWS (trimChars (lowerChars t.toList))))))
          (0, none) (first :: rest)).2 with _ | eseg
      · rcases hF : List.find? (fun seg =>
            decide (min 5 ((pySplitWS (trimChars (lowerChars t.toList))).length / 2) ≤
              List.countP (fun w => (pySplitWS (segNormText seg.text)).contains w)
                (pySplitWS (trimChars (lowerChars t.toList))))) (first :: rest)
            with _ | seg
        · simp only [hS, hE, hF]
          exact ⟨first, hfirst, first, hfirst, rfl, rfl⟩
        · have hmem := List.mem_of_find?_eq_some hF
          simp only [hS, hE, hF]
          exact ⟨seg, hmem, seg, hmem, rfl, rfl⟩
      · have hemem : eseg ∈ first :: rest := by
          rcases foldl_segMatchStep_snd _ _ (first :: rest) (0, none) with h | ⟨s, hs, h⟩
          · rw [hE] at h; exact absurd h (by simp)
          · rw [hE] at h
            obtain rfl : s = eseg := by injection h with h2; exact h2.symm
            exact hs
        simp only [hS, hE]
        exact ⟨sseg, hsmem, eseg, hemem, rfl, rfl⟩

theorem head_le_of_pairwise (f : Segment → ℚ) (first : Segment) (rest : List Segment)
    (hp : (first :: rest).Pairwise fun a b => f a ≤ f b)
    (x : Segment) (hx : x ∈ first :: rest) : f first ≤ f x := by
  rcases List.mem_cons.mp hx with rfl | hx
  · exact le_refl _
  · exact (List.pairwise_cons.mp hp).1 x hx

theorem le_getLast_of_pairwise (f : Segment → ℚ) :
    ∀ (l : List Segment) (hne : l ≠ []) (hp : l.Pairwise fun a b => f a ≤ f b)
      (x : Segment) (hx : x ∈ l), f x ≤ f (l.getLast hne) := by
  intro l
  induction l with
  | nil => intro hne; exact absurd rfl hne
  | cons a as ih =>
    intro hne hp x hx
    cases as with
    | nil =>
      obtain rfl : x = a := by simpa using hx
      simp [List.getLast]
    | cons b bs =>
      rw [List.getLast_cons (by simp)]
      rcases List.mem_cons.mp hx with rfl | hx
      · exact (List.pairwise_cons.mp hp).1 _ (List.getLast_mem (by simp))
      · exact ih (by simp) (List.pairwise_cons.mp hp).2 x hx

end VideoQueryAI

namespace VideoQueryAI

/-- C5 counterexample: on the concrete scenario of the spec (segments
`[{0,5,"hello world today"}, {5,12,"we discuss rockets"}]`, chunk text
`"today we discuss rockets"`) the aligner does **not** return
`{start_seconds: 0, end_seconds: 12}`: the start is taken from segment 2,
not segment 1. -/
theorem c5_scenario_not_claimed :
    ¬ ((findChunkTimestamps "today we discuss rockets" scenarioSegs).start_seconds = 0 ∧
       (findChunkTimestamps "today we discuss rockets" scenarioSegs).end_seconds = 12) := by
  decide

/-- C5 (amended): on the concrete scenario of the spec the aligner selects
segment 2 for **both** the start and the end (segment 1 shares only the
single word "today", below the 3-word overlap threshold, and the
four-word first phrase is not a substring of segment 1), so it returns
`{start_seconds: 5, end_seconds: 12}` with the time strings of segment 2. -/
theorem c5_scenario_eval :
    findChunkTimestamps "today we discuss rockets" scenarioSegs
      = ⟨"0:00:05", "0:00:12", 5, 12⟩ := by
  decide

/-- C6 counterexample: for segments with non-decreasing, non-negative
start seconds (and even per-segment `start ≤ end` and non-decreasing end
seconds), the aligner can return a range with
`start_seconds > end_seconds`, because the start- and end-matching
segments are chosen independently: here the opening words of the chunk match
the later segment and its closing words match the earlier one. -/
theorem c6_inverted_range :
    ((gapSegs.Pairwise fun a b => a.start_seconds ≤ b.start_seconds) ∧
      (∀ s ∈ gapSegs, 0 ≤ s.start_seconds)) ∧
    (findChunkTimestamps gapChunkText gapSegs).start_seconds = 10 ∧
    (findChunkTimestamps gapChunkText gapSegs).end_seconds = 2 ∧
    ¬ ((findChunkTimestamps gapChunkText gapSegs).start_seconds ≤
        (findChunkTimestamps gapChunkText gapSegs).end_seconds) := by
  refine ⟨⟨?_, ?_⟩, by decide, by decide, by decide⟩
  · decide
  · decide

/-- C6 (amended): for a non-empty, well-formed segment sequence
(non-negative non-decreasing starts, `start ≤ end` per segment,
non-decreasing ends), every aligned range has non-negative endpoints and
both `start_seconds` and `end_seconds` lie within
`[segments[0].start_seconds, segments[-1].end_seconds]`; the inequality
`start_seconds ≤ end_seconds` itself is **not** guaranteed (see the
counterexample). -/
theorem c6_alignment_bounds (t : String) (first : Segment) (rest : List Segment)
    (hpos : ∀ s ∈ first :: rest, 0 ≤ s.start_seconds)
    (hwf : ∀ s ∈ first :: rest, s.start_seconds ≤ s.end_seconds)
    (hs : (first :: rest).Pairwise fun a b => a.start_seconds ≤ b.start_seconds)
    (he : (first :: rest).Pairwise fun a b => a.end_seconds ≤ b.end_seconds) :
    0 ≤ (findChunkTimestamps t (first :: rest)).start_seconds ∧
    0 ≤ (findChunkTimestamps t (first :: rest)).end_seconds ∧
    first.start_seconds ≤ (findChunkTimestamps t (first :: rest)).start_seconds ∧
    (findChunkTimestamps t (first :: rest)).start_seconds ≤
      ((first :: rest).getLast (by simp)).end_seconds ∧
    first.start_seconds ≤ (findChunkTimestamps t (first :: rest)).end_seconds ∧
    (findChunkTimestamps t (first :: rest)).end_seconds ≤
      ((first :: rest).getLast (by simp)).end_seconds := by
  obtain ⟨i, hi, j, hj, hstart, hend⟩ := findChunkTimestamps_shape t first rest
  rw [hstart, hend]
  have h1 : first.start_seconds ≤ i.start_seconds :=
    head_le_of_pairwise (fun s => s.start_seconds) first rest hs i hi
  have h2 : first.start_seconds ≤ j.start_seconds :=
    head_le_of_pairwise (fun s => s.start_seconds) first rest hs j hj
  have h3 : i.end_seconds ≤ ((first :: rest).getLast (by simp)).end_seconds :=
    le_getLast_of_pairwise (fun s => s.end_seconds) (first :: rest) (by simp) he i hi
  have h4 : j.end_seconds ≤ ((first :: rest).getLast (by simp)).end_seconds :=
    le_getLast_of_pairwise (fun s => s.end_seconds) (first :: rest) (by simp) he j hj
  refine ⟨?_, ?_, h1, ?_, ?_, h4⟩
  · exact le_trans (hpos first (List.mem_cons_self first rest)) h1
  · exact le_trans (le_trans (hpos first (List.mem_cons_self first rest)) h2) (hwf j hj)
  · exact le_trans (hwf i hi) h3
  · exact le_trans h2 (hwf j hj)

/-- Witness for the C6 amended theorem at the concrete spec scenario. -/
theorem c6_alignment_bounds_witness :
    ((∀ s ∈ scenarioSegs, 0 ≤ s.start_seconds) ∧
     (∀ s ∈ scenarioSegs, s.start_seconds ≤ s.end_seconds) ∧
     (scenarioSegs.Pairwise fun a b => a.start_seconds ≤ b.start_seconds) ∧
     (scenarioSegs.Pairwise fun a b => a.end_seconds ≤ b.end_seconds)) ∧
    (0 ≤ (findChunkTimestamps "today we discuss rockets" scenarioSegs).start_seconds ∧
     0 ≤ (findChunkTimestamps "today we discuss rockets" scenarioSegs).end_seconds ∧
     (0:ℚ) ≤ (findChunkTimestamps "today we discuss rockets" scenarioSegs).start_seconds ∧
     (findChunkTimestamps "today we discuss rockets" scenarioSegs).start_seconds ≤ 12 ∧
     (0:ℚ) ≤ (findChunkTimestamps "today we discuss rockets" scenarioSegs).end_seconds ∧
     (findChunkTimestamps "today we discuss rockets" scenarioSegs).end_seconds ≤ 12) := by
  have h := c6_alignment_bounds "today we discuss rockets"
    ⟨"0:00:00", "0:00:05", 0, 5, "hello world today"⟩
    [⟨"0:00:05", "0:00:12", 5, 12, "we discuss rockets"⟩]
    (by decide) (by decide) (by decide) (by decide)
  exact ⟨⟨by decide, by decide, by decide, by decide⟩, by exact_mod_cast h⟩

/-- C7: a chunk of fewer than 3 words (after lower-casing, stripping and
whitespace splitting) is aligned to exactly the range of the first segment
whenever segments exist, and to the all-zero range when the segment list
is empty. -/
theorem c7_degenerate_chunk :
    (∀ (t : String) (first : Segment) (rest : List Segment),
      (pySplitWS (trimChars (lowerChars t.toList))).length < 3 →
      findChunkTimestamps t (first :: rest)
        = ⟨first.start_time, first.end_time, first.start_seconds, first.end_seconds⟩) ∧
    (∀ t : String, findChunkTimestamps t [] = ⟨"0:00:00", "0:00:00", 0, 0⟩) := by
  constructor
  · intro t first rest hlt
    simp only [findChunkTimestamps]
    rw [if_pos hlt]
  · intro t
    rfl

/-- Witness for C7 at a two-word chunk and the scenario segments. -/
theorem c7_degenerate_chunk_witness :
    (pySplitWS (trimChars (lowerChars "hi there".toList))).length < 3 ∧
    findChunkTimestamps "hi there" scenarioSegs = ⟨"0:00:00", "0:00:05", 0, 5⟩ := by
  exact ⟨by decide, c7_degenerate_chunk.1 "hi there"
    ⟨"0:00:00", "0:00:05", 0, 5, "hello world today"⟩
    [⟨"0:00:05", "0:00:12", 5, 12, "we discuss rockets"⟩] (by decide)⟩

end VideoQueryAI


namespace VideoQueryAI

theorem chromaAdd_append (entries : List DocEntry) :
    ∀ (coll : List DocEntry),
      ((coll ++ entries).map (fun e => e.id)).Nodup →
      chromaAdd coll entries = coll ++ entries := by
  induction entries with
  | nil => intro coll _; simp [chromaAdd]
  | cons e es ih =>
    intro coll h
    have hperm : ((coll ++ e :: es).map fun x => x.id).Perm
        (((coll ++ [e]) ++ es).map fun x => x.id) := by
      simp [List.append_assoc]
    have h2 : (((coll ++ [e]) ++ es).map fun x => x.id).Nodup :=
      hperm.nodup_iff.mp h
    have hnotin : e.id ∉ coll.map fun x => x.id := by
      intro hmem
      have hd := (List.nodup_append.mp (by simpa using h)).2.2
      exact hd hmem (by simp)
    have hstep : (if coll.any (fun x => x.id = e.id) then coll else coll ++ [e])
        = coll ++ [e] := by
      rw [if_neg]
      simp only [List.any_eq_true, decide_eq_true_eq]
      rintro ⟨x, hx, hxid⟩
      exact hnotin (by exact List.mem_map.mpr ⟨x, hx, hxid⟩)
    calc chromaAdd coll (e :: es)
        = chromaAdd (coll ++ [e]) es := by
          simp only [chromaAdd, List.foldl_cons, hstep]
      _ = (coll ++ [e]) ++ es := ih (coll ++ [e]) h2
      _ = coll ++ e :: es := by simp [List.append_assoc]

end VideoQueryAI

namespace VideoQueryAI

/-- C1: `qa.add_chunks_to_chromadb` never invalidates the BM25 cache
(first clause: the cache slot is preserved by every add), so in the
scenario — add 10 chunks, build the lexical index, add 10 more — the
collection holds 20 chunks while the next `build_bm25_index` call still
returns the cached index over only the first 10 documents. -/
theorem c1_bm25_cache_stale :
    (∀ (s : QAState) (chunks : List RawChunk),
      ((addChunksToChromadb s chunks).2).cache = s.cache) ∧
    staleState.collection.length = 20 ∧
    ((buildBM25Index staleState).1.map (fun c => c.documents.length)) = some 10 := by
  refine ⟨fun s chunks => ?_, by decide, by decide⟩
  simp only [addChunksToChromadb]
  split <;> rfl

end VideoQueryAI

namespace VideoQueryAI

set_option maxRecDepth 40000 in
/-- C2 counterexample: two successive `FAISSVectorStore.add_chunks` calls
with ten valid chunks each leave a stored collection of 10 chunks, not
20 — the second call rebuilds the index from its own chunks file alone
and overwrites the persisted collection (its documents are exactly the
second batch). -/
theorem c2_faiss_overwrites :
    (faissTwice.map (fun c => c.count) = some 10 ∧
      faissTwice.map (fun c => c.ids) = some (fBatchB.map (fun c => c.unique_id.getD ""))) ∧
    ¬ faissTwice.map (fun c => c.count) = some 20 := by
  exact ⟨⟨by decide, by decide⟩, by decide⟩

theorem chromaQuery_ids_perm (coll : List DocEntry) (qd : List ℚ)
    (h : coll.length = qd.length) (k : ℕ) (hk : coll.length ≤ k) :
    ((chromaQuery coll qd k).ids).Perm (coll.map (fun e => e.id)) := by
  have hlen : (coll.zip qd).length = coll.length := by
    simp [List.length_zip, h]
  have hperm := List.perm_insertionSort distAsc (coll.zip qd)
  have hslen : (List.insertionSort distAsc (coll.zip qd)).length = coll.length := by
    rw [hperm.length_eq, hlen]
  have htake : (List.insertionSort distAsc (coll.zip qd)).take k
      = List.insertionSort distAsc (coll.zip qd) :=
    List.take_of_length_le (by rw [hslen]; exact hk)
  have hfst : (coll.zip qd).map Prod.fst = coll := List.map_fst_zip coll qd (le_of_eq h)
  have hbase : (coll.zip qd).map (fun p => p.1.id) = coll.map (fun e => e.id) := by
    have hmm : ((coll.zip qd).map Prod.fst).map (fun e => e.id)
        = (coll.zip qd).map (fun p => p.1.id) := by
      rw [List.map_map]; rfl
    rw [← hmm, hfst]
  simp only [chromaQuery, htake]
  have hp2 : ((List.insertionSort distAsc (coll.zip qd)).map (fun p => p.1.id)).Perm
      ((coll.zip qd).map (fun p => p.1.id)) := hperm.map _
  rw [hbase] at hp2
  exact hp2

/-- C2 (amended): the ChromaDB-backed add path used by the pipeline
(`qa.add_chunks_to_chromadb`) does append: two adds of ten valid chunks
with fresh ids yield a 20-chunk collection whose stored entries are the
concatenation of both batches, and a subsequent vector query with room
for 20 candidates ranges over all 20 ids. (The FAISS-backed replacement
instead overwrites; see the counterexample.) -/
theorem c2_chroma_appends (cA cB : List RawChunk) (qd : List ℚ)
    (h1 : (processChunks cA).length = 10)
    (h2 : (processChunks cB).length = 10)
    (hnd : ((processChunks cA ++ processChunks cB).map (fun e => e.id)).Nodup)
    (hqd : qd.length = 20) :
    (addChunksToChromadb (addChunksToChromadb ⟨[], none⟩ cA).2 cB).2.collection
      = processChunks cA ++ processChunks cB ∧
    (addChunksToChromadb (addChunksToChromadb ⟨[], none⟩ cA).2 cB).2.collection.length = 20 ∧
    ((chromaQuery
        ((addChunksToChromadb (addChunksToChromadb ⟨[], none⟩ cA).2 cB).2.collection)
        qd 20).ids).Perm
      ((processChunks cA ++ processChunks cB).map (fun e => e.id)) := by
  have hndA : ((processChunks cA).map (fun e => e.id)).Nodup := by
    rw [List.map_append] at hnd
    exact (List.nodup_append.mp hnd).1
  have hs1 : (addChunksToChromadb ⟨[], none⟩ cA).2
      = ⟨processChunks cA, none⟩ := by
    simp only [addChunksToChromadb]
    rw [if_neg (by rw [h1]; decide)]
    have : chromaAdd [] (processChunks cA) = [] ++ processChunks cA :=
      chromaAdd_append (processChunks cA) [] (by simpa using hndA)
    simp only [this, List.nil_append]
  have hs2 : (addChunksToChromadb (addChunksToChromadb ⟨[], none⟩ cA).2 cB).2
      = ⟨processChunks cA ++ processChunks cB, none⟩ := by
    rw [hs1]
    simp only [addChunksToChromadb]
    rw [if_neg (by rw [h2]; decide)]
    have : chromaAdd (processChunks cA) (processChunks cB)
        = processChunks cA ++ processChunks cB :=
      chromaAdd_append (processChunks cB) (processChunks cA) hnd
    simp only [this]
  refine ⟨by rw [hs2], by rw [hs2]; simp [h1, h2], ?_⟩
  rw [hs2]
  exact chromaQuery_ids_perm (processChunks cA ++ processChunks cB) qd
    (by simp [h1, h2, hqd]) 20 (by simp [h1, h2])

/-- Witness for C2 (amended) at the concrete ten-chunk batches. -/
theorem c2_chroma_appends_witness :
    ((processChunks batchA).length = 10 ∧
     (processChunks batchB).length = 10 ∧
     ((processChunks batchA ++ processChunks batchB).map (fun e => e.id)).Nodup ∧
     (List.replicate 20 (0:ℚ)).length = 20) ∧
    ((addChunksToChromadb (addChunksToChromadb ⟨[], none⟩ batchA).2 batchB).2.collection
       = processChunks batchA ++ processChunks batchB ∧
     (addChunksToChromadb (addChunksToChromadb ⟨[], none⟩ batchA).2 batchB).2.collection.length
       = 20 ∧
     ((chromaQuery
         ((addChunksToChromadb (addChunksToChromadb ⟨[], none⟩ batchA).2 batchB).2.collection)
         (List.replicate 20 (0:ℚ)) 20).ids).Perm
       ((processChunks batchA ++ processChunks batchB).map (fun e => e.id))) := by
  refine ⟨⟨by decide, by decide, by decide, by decide⟩, ?_⟩
  exact c2_chroma_appends batchA batchB (List.replicate 20 (0:ℚ))
    (by decide) (by decide) (by decide) (by decide)

/-- C8: hybrid search over an empty or nonexistent collection returns the
all-empty ranked result in both back ends — `qa.search_videos` on an empty
collection with no cached index, and `FAISSVectorStore.search` when the
collection files are missing. (In the code any exception is additionally
caught and mapped to the same empty result; the model is total.) -/
theorem c8_empty_collection :
    (∀ (qdists scores : List ℚ) (n : ℕ),
      (searchVideos ⟨[], none⟩ qdists scores n).1 = ⟨[], [], [], []⟩) ∧
    (∀ (topScores : List ℚ) (topIndices : List ℕ),
      faissSearch none topScores topIndices = ⟨[], [], [], []⟩) := by
  constructor
  · intro qd sc n
    simp [searchVideos, chromaQuery, buildBM25Index, searchFusion, fusedPool,
      buildPool, boostPool]
  · intro ts ti
    rfl

end VideoQueryAI

namespace VideoQueryAI

theorem dlookup_isSome_iff (k : String) (d : List (String × PoolEntry)) :
    (dlookup k d).isSome = true ↔ k ∈ d.map Prod.fst := by
  induction d with
  | nil => simp [dlookup]
  | cons q d ih =>
    by_cases h : q.1 = k
    · simp [dlookup, h]
    · simp [dlookup, h, ih, Ne.symm h]

theorem dlookup_mem {k : String} {d : List (String × PoolEntry)} {e : PoolEntry}
    (h : dlookup k d = some e) : (k, e) ∈ d := by
  induction d with
  | nil => simp [dlookup] at h
  | cons q d ih =>
    by_cases hq : q.1 = k
    · simp only [dlookup, if_pos hq] at h
      obtain ⟨q1, q2⟩ := q
      simp only at hq
      subst hq
      obtain rfl : q2 = e := by injection h
      exact List.mem_cons_self _ _
    · simp only [dlookup, if_neg hq] at h
      exact List.mem_cons_of_mem q (ih h)

theorem dlookup_eq_of_mem {d : List (String × PoolEntry)}
    (hnd : (d.map Prod.fst).Nodup) {p : String × PoolEntry} (hp : p ∈ d) :
    dlookup p.1 d = some p.2 := by
  induction d with
  | nil => simp at hp
  | cons q d ih =>
    rcases List.mem_cons.mp hp with rfl | hp
    · simp [dlookup]
    · have hne : q.1 ≠ p.1 := by
        intro he
        have : p.1 ∈ d.map Prod.fst := List.mem_map.mpr ⟨p, hp, rfl⟩
        rw [← he] at this
        exact (List.nodup_cons.mp (by simpa using hnd)).1 this
      rw [dlookup, if_neg hne]
      exact ih (List.nodup_cons.mp (by simpa using hnd)).2 hp

theorem keys_dictInsert (d : List (String × PoolEntry)) (k : String) (v : PoolEntry)
    (hk : ¬ k ∈ d.map Prod.fst) : dictInsert d k v = d ++ [(k, v)] := by
  have hs : ¬ (dlookup k d).isSome = true := by
    intro hs
    exact hk ((dlookup_isSome_iff k d).mp hs)
  rw [dictInsert, if_neg hs]

theorem keys_mapReplace (d : List (String × PoolEntry)) (k : String)
    (f : String × PoolEntry → String × PoolEntry)
    (hf : ∀ p, (if p.1 = k then f p else p).1 = p.1) :
    (d.map (fun p => if p.1 = k then f p else p)).map Prod.fst = d.map Prod.fst := by
  rw [List.map_map]
  apply List.map_congr_left
  intro p _
  exact hf p

theorem keys_dictInsert_sub (d : List (String × PoolEntry)) (k : String) (v : PoolEntry)
    (a : String) (h : a ∈ (dictInsert d k v).map Prod.fst) :
    a ∈ d.map Prod.fst ∨ a = k := by
  rw [dictInsert] at h
  split_ifs at h with hs
  · left
    have hkeys : (d.map (fun p => if p.1 = k then (p.1, v) else p)).map Prod.fst
        = d.map Prod.fst := by
      rw [List.map_map]
      apply List.map_congr_left
      intro p _
      by_cases h0 : p.1 = k <;> simp [h0]
    rwa [hkeys] at h
  · simpa using h

theorem buildPool_go_eq (quads : List (String × String × Meta × ℚ)) :
    ∀ (acc : List (String × PoolEntry)),
      ((acc.map Prod.fst ++ quads.map Prod.fst).Nodup) →
      quads.foldl (fun d q => dictInsert d q.1 ⟨q.2.1, q.2.2.1, 1 - q.2.2.2⟩) acc
        = acc ++ quads.map (fun q => (q.1, (⟨q.2.1, q.2.2.1, 1 - q.2.2.2⟩ : PoolEntry))) := by
  induction quads with
  | nil => intro acc _; simp
  | cons q qs ih =>
    intro acc hnd
    rw [List.foldl_cons]
    have hknotin : ¬ q.1 ∈ acc.map Prod.fst := by
      intro hmem
      have hd := (List.nodup_append.mp hnd).2.2
      exact hd hmem (by simp)
    rw [keys_dictInsert acc q.1 _ hknotin]
    have hnd2 : ((acc ++ [(q.1, (⟨q.2.1, q.2.2.1, 1 - q.2.2.2⟩ : PoolEntry))]).map Prod.fst
        ++ qs.map Prod.fst).Nodup := by
      have : ((acc ++ [(q.1, (⟨q.2.1, q.2.2.1, 1 - q.2.2.2⟩ : PoolEntry))]).map Prod.fst
          ++ qs.map Prod.fst) = (acc.map Prod.fst ++ (q.1 :: qs.map Prod.fst)) := by
        simp
      rw [this]
      simpa using hnd
    rw [ih _ hnd2]
    simp

theorem buildPool_eq_of_nodup (quads : List (String × String × Meta × ℚ))
    (hnd : (quads.map Prod.fst).Nodup) :
    buildPool quads
      = quads.map (fun q => (q.1, (⟨q.2.1, q.2.2.1, 1 - q.2.2.2⟩ : PoolEntry))) := by
  have := buildPool_go_eq quads [] (by simpa using hnd)
  simpa [buildPool] using this

theorem buildPool_keys_sub (quads : List (String × String × Meta × ℚ)) :
    ∀ (acc : List (String × PoolEntry)) (a : String),
      a ∈ (quads.foldl (fun d q => dictInsert d q.1 ⟨q.2.1, q.2.2.1, 1 - q.2.2.2⟩) acc).map
          Prod.fst →
      a ∈ acc.map Prod.fst ∨ a ∈ quads.map Prod.fst := by
  induction quads with
  | nil => intro acc a h; exact Or.inl (by simpa using h)
  | cons q qs ih =>
    intro acc a h
    rw [List.foldl_cons] at h
    rcases ih _ a h with hacc | hqs
    · rcases keys_dictInsert_sub acc q.1 _ a hacc with h1 | h1
      · exact Or.inl h1
      · exact Or.inr (by simp [h1])
    · exact Or.inr (List.mem_map.mpr
        (by rcases List.mem_map.mp hqs with ⟨p, hp, hpa⟩
            exact ⟨p, List.mem_cons_of_mem q hp, hpa⟩))

theorem keys_boostStep (d : List (String × PoolEntry)) (k : String) :
    (boostStep d k).map Prod.fst = d.map Prod.fst := by
  rw [boostStep]
  split_ifs
  · rw [List.map_map]
    apply List.map_congr_left
    intro p _
    by_cases h : p.1 = k <;> simp [h]
  · rfl

theorem keys_boostPool (d : List (String × PoolEntry)) (ids : List String) :
    (boostPool d ids).map Prod.fst = d.map Prod.fst := by
  induction ids generalizing d with
  | nil => rfl
  | cons j js ih =>
    rw [boostPool, List.foldl_cons]
    have := ih (boostStep d j)
    rw [boostPool] at this
    rw [this, keys_boostStep]

end VideoQueryAI

namespace VideoQueryAI

theorem dlookup_mapReplace (k j : String) (v : PoolEntry → PoolEntry) :
    ∀ d : List (String × PoolEntry),
      dlookup k (d.map (fun p => if p.1 = j then (p.1, v p.2) else p))
        = if k = j then (dlookup k d).map v else dlookup k d := by
  intro d
  induction d with
  | nil => by_cases h : k = j <;> simp [dlookup, h]
  | cons q d ih =>
    by_cases h1 : q.1 = j
    · by_cases h2 : k = j
      · have hqk : q.1 = k := by rw [h1, h2]
        simp [dlookup, h1, hqk, h2]
      · have hqk : ¬ q.1 = k := by rw [h1]; exact fun he => h2 he.symm
        have hjk : ¬ j = k := fun he => h2 he.symm
        simp [dlookup, h1, hqk, h2, hjk, ih]
    · by_cases h2 : q.1 = k
      · have hkj : ¬ k = j := by rw [← h2]; exact h1
        simp [dlookup, h1, h2, hkj]
      · simp [dlookup, h1, h2, ih]

theorem dlookup_boostStep (k j : String) (d : List (String × PoolEntry)) :
    dlookup k (boostStep d j)
      = if k = j then
          (dlookup k d).map (fun e => ⟨e.text, e.metadata, e.score + 1/2⟩)
        else dlookup k d := by
  rw [boostStep]
  by_cases hs : (dlookup j d).isSome = true
  · rw [if_pos hs]
    exact dlookup_mapReplace k j (fun e => ⟨e.text, e.metadata, e.score + 1/2⟩) d
  · rw [if_neg hs]
    by_cases h2 : k = j
    · subst h2
      have hnone : dlookup k d = none := Option.not_isSome_iff_eq_none.mp hs
      rw [if_pos rfl, hnone]
      rfl
    · rw [if_neg h2]

theorem dlookup_boostPool (ids : List String) :
    ∀ (d : List (String × PoolEntry)) (k : String),
      dlookup k (boostPool d ids)
        = (dlookup k d).map
            (fun e => ⟨e.text, e.metadata, e.score + (ids.count k : ℚ) * (1/2)⟩) := by
  induction ids with
  | nil =>
    intro d k
    rw [boostPool, List.foldl_nil]
    cases h : dlookup k d with
    | none => rfl
    | some e => simp
  | cons j js ih =>
    intro d k
    have hstep : boostPool d (j :: js) = boostPool (boostStep d j) js := by
      rw [boostPool, boostPool, List.foldl_cons]
    rw [hstep, ih (boostStep d j) k, dlookup_boostStep]
    by_cases h : k = j
    · rw [if_pos h]
      cases h0 : dlookup k d with
      | none => rfl
      | some e =>
        have hcount : ((j :: js).count k : ℚ) = (js.count k : ℚ) + 1 := by
          subst h
          rw [List.count_cons_self]
          push_cast
          ring
        simp only [Option.map_some']
        rw [hcount]
        congr 1
        ring_nf
    · rw [if_neg h]
      cases h0 : dlookup k d with
      | none => rfl
      | some e =>
        have hcount : ((j :: js).count k : ℚ) = (js.count k : ℚ) := by
          rw [List.count_cons_of_ne h]
        simp only [Option.map_some']
        rw [hcount]

end VideoQueryAI

namespace VideoQueryAI

theorem quads_keys (vecIds vecDocs : List String) (vecMetas : List Meta)
    (vecDists : List ℚ)
    (hlD : vecDocs.length = vecIds.length) (hlM : vecMetas.length = vecIds.length)
    (hlQ : vecDists.length = vecIds.length) :
    (vecIds.zip (vecDocs.zip (vecMetas.zip vecDists))).map Prod.fst = vecIds := by
  apply List.map_fst_zip
  rw [List.length_zip, List.length_zip, hlD, hlM, hlQ]
  simp

theorem fusedPool_eq (vecIds vecDocs : List String) (vecMetas : List Meta)
    (vecDists : List ℚ) (bm25Ids bm25Docs : List String)
    (hlD : vecDocs.length = vecIds.length) (hlM : vecMetas.length = vecIds.length)
    (hlQ : vecDists.length = vecIds.length)
    (hndV : vecIds.Nodup) (hD : vecDocs ≠ []) (hB : bm25Docs ≠ []) :
    fusedPool vecIds vecDocs vecMetas vecDists bm25Ids bm25Docs
      = boostPool
          ((vecIds.zip (vecDocs.zip (vecMetas.zip vecDists))).map
            (fun q => (q.1, (⟨q.2.1, q.2.2.1, 1 - q.2.2.2⟩ : PoolEntry))))
          bm25Ids := by
  rw [fusedPool]
  simp only [if_neg hD, if_neg hB]
  rw [buildPool_eq_of_nodup _ (by rw [quads_keys vecIds vecDocs vecMetas vecDists hlD hlM hlQ]; exact hndV)]

theorem fusedPool_keys (vecIds vecDocs : List String) (vecMetas : List Meta)
    (vecDists : List ℚ) (bm25Ids bm25Docs : List String)
    (hlD : vecDocs.length = vecIds.length) (hlM : vecMetas.length = vecIds.length)
    (hlQ : vecDists.length = vecIds.length)
    (hndV : vecIds.Nodup) (hD : vecDocs ≠ []) (hB : bm25Docs ≠ []) :
    (fusedPool vecIds vecDocs vecMetas vecDists bm25Ids bm25Docs).map Prod.fst
      = vecIds := by
  rw [fusedPool_eq vecIds vecDocs vecMetas vecDists bm25Ids bm25Docs hlD hlM hlQ hndV hD hB,
    keys_boostPool, List.map_map]
  have : ((Prod.fst : String × PoolEntry → String) ∘
      (fun q : String × String × Meta × ℚ =>
        (q.1, (⟨q.2.1, q.2.2.1, 1 - q.2.2.2⟩ : PoolEntry)))) = Prod.fst := by
    funext q
    rfl
  rw [this]
  exact quads_keys vecIds vecDocs vecMetas vecDists hlD hlM hlQ

theorem fusedPool_lookup (vecIds vecDocs : List String) (vecMetas : List Meta)
    (vecDists : List ℚ) (bm25Ids bm25Docs : List String)
    (hlD : vecDocs.length = vecIds.length) (hlM : vecMetas.length = vecIds.length)
    (hlQ : vecDists.length = vecIds.length)
    (hndV : vecIds.Nodup) (hB : bm25Docs ≠ [])
    (k0 d0 : String) (m0 : Meta) (q0 : ℚ)
    (hmem : (k0, (d0, (m0, q0))) ∈ vecIds.zip (vecDocs.zip (vecMetas.zip vecDists))) :
    dlookup k0 (fusedPool vecIds vecDocs vecMetas vecDists bm25Ids bm25Docs)
      = some ⟨d0, m0, (1 - q0) + (bm25Ids.count k0 : ℚ) * (1/2)⟩ := by
  have hD : vecDocs ≠ [] := by
    have h2 := (List.of_mem_zip hmem).2
    have h3 := (List.of_mem_zip h2).1
    intro he
    rw [he] at h3
    simp at h3
  rw [fusedPool_eq vecIds vecDocs vecMetas vecDists bm25Ids bm25Docs hlD hlM hlQ hndV hD hB]
  rw [dlookup_boostPool]
  have hkeysnd : (((vecIds.zip (vecDocs.zip (vecMetas.zip vecDists))).map
      (fun q => (q.1, (⟨q.2.1, q.2.2.1, 1 - q.2.2.2⟩ : PoolEntry)))).map Prod.fst).Nodup := by
    rw [List.map_map]
    have : ((Prod.fst : String × PoolEntry → String) ∘
        (fun q : String × String × Meta × ℚ =>
          (q.1, (⟨q.2.1, q.2.2.1, 1 - q.2.2.2⟩ : PoolEntry)))) = Prod.fst := by
      funext q
      rfl
    rw [this, quads_keys vecIds vecDocs vecMetas vecDists hlD hlM hlQ]
    exact hndV
  have hpmem : ((k0, (⟨d0, m0, 1 - q0⟩ : PoolEntry))) ∈
      (vecIds.zip (vecDocs.zip (vecMetas.zip vecDists))).map
        (fun q => (q.1, (⟨q.2.1, q.2.2.1, 1 - q.2.2.2⟩ : PoolEntry))) :=
    List.mem_map.mpr ⟨(k0, (d0, (m0, q0))), hmem, rfl⟩
  have := dlookup_eq_of_mem hkeysnd hpmem
  rw [this]
  rfl

end VideoQueryAI

namespace VideoQueryAI

theorem mem_keys_fusedPool (vecIds vecDocs : List String) (vecMetas : List Meta)
    (vecDists : List ℚ) (bm25Ids bm25Docs : List String) (a : String)
    (h : a ∈ (fusedPool vecIds vecDocs vecMetas vecDists bm25Ids bm25Docs).map Prod.fst) :
    a ∈ vecIds := by
  have main : a ∈ (buildPool (vecIds.zip (vecDocs.zip (vecMetas.zip vecDists)))).map
      Prod.fst → a ∈ vecIds := by
    intro hm
    rw [buildPool] at hm
    rcases buildPool_keys_sub _ [] a hm with h1 | h1
    · simp at h1
    · rcases List.mem_map.mp h1 with ⟨p, hp, hpa⟩
      rw [← hpa]
      exact (List.of_mem_zip hp).1
  simp only [fusedPool] at h
  split_ifs at h with h1 h2 h3
  · simp at h
  · exact main h
  · rw [keys_boostPool] at h
    simp at h
  · rw [keys_boostPool] at h
    exact main h

/-- C4: the fused candidate pool is seeded only from the dense (vector)
results and BM25 hits merely re-rank within it, so every id in the ranked
result of `qa.search_videos` comes from the dense result set; a chunk id
appearing only in the lexical result set never appears in the output. -/
theorem c4_dense_base_set (vecIds vecDocs : List String) (vecMetas : List Meta)
    (vecDists : List ℚ) (bm25Ids bm25Docs : List String) (n : ℕ) (k : String)
    (hk : k ∈ (searchFusion vecIds vecDocs vecMetas vecDists bm25Ids bm25Docs n).ids) :
    k ∈ vecIds := by
  simp only [searchFusion] at hk
  rcases List.mem_map.mp hk with ⟨p, hp, hpk⟩
  have hp2 : p ∈ List.insertionSort scoreDesc
      (fusedPool vecIds vecDocs vecMetas vecDists bm25Ids bm25Docs) :=
    List.mem_of_mem_take hp
  have hp3 : p ∈ fusedPool vecIds vecDocs vecMetas vecDists bm25Ids bm25Docs :=
    (List.perm_insertionSort scoreDesc _).mem_iff.mp hp2
  exact mem_keys_fusedPool vecIds vecDocs vecMetas vecDists bm25Ids bm25Docs k
    (by rw [← hpk]; exact List.mem_map.mpr ⟨p, hp3, rfl⟩)

/-- Witness for C4: a lexical-only id `y` is absent from the returned
ranking, and every returned id comes from the dense set. -/
theorem c4_dense_base_set_witness :
    ("x" ∈ (searchFusion ["x"] ["dx"] [mkMeta 0 RawChunk.blank] [0] ["y"] ["dy"] 3).ids) ∧
    ("x" ∈ ["x"]) ∧
    ¬ ("y" ∈ (searchFusion ["x"] ["dx"] [mkMeta 0 RawChunk.blank] [0] ["y"] ["dy"] 3).ids) := by
  refine ⟨?_, by decide, ?_⟩
  · have h : (searchFusion ["x"] ["dx"] [mkMeta 0 RawChunk.blank] [0] ["y"] ["dy"] 3).ids
        = ["x"] := by
      norm_num [searchFusion, fusedPool, buildPool, dictInsert, dlookup, boostPool,
        boostStep, List.insertionSort, List.orderedInsert]
    rw [h]
    exact c4_dense_base_set ["x"] ["dx"] [mkMeta 0 RawChunk.blank] [0] ["y"] ["dy"] 3 "x"
      (by rw [h]; decide)
  · have h : (searchFusion ["x"] ["dx"] [mkMeta 0 RawChunk.blank] [0] ["y"] ["dy"] 3).ids
        = ["x"] := by
      norm_num [searchFusion, fusedPool, buildPool, dictInsert, dlookup, boostPool,
        boostStep, List.insertionSort, List.orderedInsert]
    rw [h]
    decide

end VideoQueryAI

namespace VideoQueryAI

theorem rank_in_take (pool : List (String × PoolEntry)) (n : ℕ)
    (hkeysnd : (pool.map Prod.fst).Nodup)
    (kb kd : String) (eb ed : PoolEntry)
    (hbl : dlookup kb pool = some eb) (hdl : dlookup kd pool = some ed)
    (hne : kb ≠ kd) (hgt : ed.score < eb.score) :
    ∀ j (hj : j < (((List.insertionSort scoreDesc pool).take n).map Prod.fst).length),
      (((List.insertionSort scoreDesc pool).take n).map Prod.fst).get ⟨j, hj⟩ = kd →
      ∃ i, ∃ hi : i < (((List.insertionSort scoreDesc pool).take n).map Prod.fst).length,
        i < j ∧ (((List.insertionSort scoreDesc pool).take n).map Prod.fst).get ⟨i, hi⟩ = kb := by
  intro j hj hjk
  have hsorted := List.sorted_insertionSort scoreDesc pool
  have hperm := List.perm_insertionSort scoreDesc pool
  have hjt : j < ((List.insertionSort scoreDesc pool).take n).length := by
    rw [List.length_map] at hj
    exact hj
  have hjs : j < (List.insertionSort scoreDesc pool).length :=
    lt_of_lt_of_le hjt (by rw [List.length_take]; exact min_le_right _ _)
  have hjk2 : ((List.insertionSort scoreDesc pool).get ⟨j, hjs⟩).1 = kd := by
    rw [List.get_eq_getElem, List.getElem_map, List.getElem_take] at hjk
    rw [List.get_eq_getElem]
    exact hjk
  have hpjmem : (List.insertionSort scoreDesc pool).get ⟨j, hjs⟩ ∈ pool :=
    hperm.mem_iff.mp (List.get_mem _ _ _)
  have hpjval : ((List.insertionSort scoreDesc pool).get ⟨j, hjs⟩).2 = ed := by
    have hlk := dlookup_eq_of_mem hkeysnd hpjmem
    rw [hjk2] at hlk
    rw [hdl] at hlk
    injection hlk with h2
    exact h2.symm
  have hbmem : (kb, eb) ∈ pool := dlookup_mem hbl
  have hbsorted : (kb, eb) ∈ List.insertionSort scoreDesc pool := hperm.mem_iff.mpr hbmem
  obtain ⟨iF, hiF⟩ := List.mem_iff_get.mp hbsorted
  have hine : iF.1 ≠ j := by
    intro he
    have hsame : (List.insertionSort scoreDesc pool).get ⟨j, hjs⟩ = (kb, eb) := by
      rw [← hiF]
      congr 1
      exact Fin.ext he.symm
    apply hne
    rw [← hjk2, hsame]
  have hilt : iF.1 < j := by
    rcases Nat.lt_or_ge iF.1 j with h | h
    · exact h
    · exfalso
      have hjlt : j < iF.1 := lt_of_le_of_ne h (fun he => hine he.symm)
      have hrel := List.Sorted.rel_get_of_lt hsorted
        (a := ⟨j, hjs⟩) (b := iF) hjlt
      simp only [scoreDesc] at hrel
      rw [hiF] at hrel
      have := hpjval
      rw [this] at hrel
      exact absurd hrel (not_le.mpr hgt)
  refine ⟨iF.1, ?_, hilt, ?_⟩
  · rw [List.length_map]
    exact lt_trans hilt hjt
  · rw [List.get_eq_getElem, List.getElem_map, List.getElem_take,
      ← List.get_eq_getElem]
    have hfin : (⟨iF.1, iF.2⟩ : Fin (List.insertionSort scoreDesc pool).length) = iF :=
      Fin.ext rfl
    rw [show ((List.insertionSort scoreDesc pool).get
        ⟨iF.1, lt_of_lt_of_le hilt (le_of_lt hjs)⟩)
      = (List.insertionSort scoreDesc pool).get iF from by congr 1]
    rw [hiF]

end VideoQueryAI

namespace VideoQueryAI

/-- C3: a chunk id appearing in both the dense and the lexical (BM25)
top-`2k` result sets gets final fused score `(1 - cosine distance) + 0.5`
exactly (first clause: its pool entry), and in the ranked output it is
placed strictly before any chunk that has only a dense match with the same
dense base score (second clause). -/
theorem c3_fusion_boost
    (vecIds vecDocs : List String) (vecMetas : List Meta) (vecDists : List ℚ)
    (bm25Ids bm25Docs : List String) (n : ℕ)
    (kb db : String) (mb : Meta) (qb : ℚ) (kd dd : String) (md : Meta) (qd : ℚ)
    (hlD : vecDocs.length = vecIds.length) (hlM : vecMetas.length = vecIds.length)
    (hlQ : vecDists.length = vecIds.length)
    (hndV : vecIds.Nodup) (hndB : bm25Ids.Nodup)
    (hlB : bm25Docs.length = bm25Ids.length)
    (hb : (kb, (db, (mb, qb))) ∈ vecIds.zip (vecDocs.zip (vecMetas.zip vecDists)))
    (hkbB : kb ∈ bm25Ids)
    (hd : (kd, (dd, (md, qd))) ∈ vecIds.zip (vecDocs.zip (vecMetas.zip vecDists)))
    (hkdB : kd ∉ bm25Ids) (hbase : qd = qb) :
    dlookup kb (fusedPool vecIds vecDocs vecMetas vecDists bm25Ids bm25Docs)
      = some ⟨db, mb, (1 - qb) + 1/2⟩ ∧
    (∀ j (hj : j <
        (searchFusion vecIds vecDocs vecMetas vecDists bm25Ids bm25Docs n).ids.length),
      (searchFusion vecIds vecDocs vecMetas vecDists bm25Ids bm25Docs n).ids.get
        ⟨j, hj⟩ = kd →
      ∃ i, ∃ hi : i <
          (searchFusion vecIds vecDocs vecMetas vecDists bm25Ids bm25Docs n).ids.length,
        i < j ∧
        (searchFusion vecIds vecDocs vecMetas vecDists bm25Ids bm25Docs n).ids.get
          ⟨i, hi⟩ = kb) := by
  have hkbkd : kb ≠ kd := fun he => hkdB (he ▸ hkbB)
  have hB : bm25Docs ≠ [] := by
    intro he
    rw [he] at hlB
    have h0 : bm25Ids = [] := List.eq_nil_of_length_eq_zero hlB.symm
    rw [h0] at hkbB
    simp at hkbB
  have hD : vecDocs ≠ [] := by
    have h2 := (List.of_mem_zip hb).2
    have h3 := (List.of_mem_zip h2).1
    intro he
    rw [he] at h3
    simp at h3
  have hlookb0 := fusedPool_lookup vecIds vecDocs vecMetas vecDists bm25Ids bm25Docs
    hlD hlM hlQ hndV hB kb db mb qb hb
  rw [List.count_eq_one_of_mem hndB hkbB] at hlookb0
  have hlookb : dlookup kb (fusedPool vecIds vecDocs vecMetas vecDists bm25Ids bm25Docs)
      = some ⟨db, mb, (1 - qb) + 1/2⟩ := by
    rw [hlookb0]
    norm_num
  have hlookd0 := fusedPool_lookup vecIds vecDocs vecMetas vecDists bm25Ids bm25Docs
    hlD hlM hlQ hndV hB kd dd md qd hd
  rw [List.count_eq_zero_of_not_mem hkdB] at hlookd0
  have hlookd : dlookup kd (fusedPool vecIds vecDocs vecMetas vecDists bm25Ids bm25Docs)
      = some ⟨dd, md, 1 - qb⟩ := by
    rw [hlookd0, hbase]
    norm_num
  refine ⟨hlookb, ?_⟩
  have hkeys : (fusedPool vecIds vecDocs vecMetas vecDists bm25Ids bm25Docs).map
      Prod.fst = vecIds :=
    fusedPool_keys vecIds vecDocs vecMetas vecDists bm25Ids bm25Docs hlD hlM hlQ hndV hD hB
  have hkeysnd : ((fusedPool vecIds vecDocs vecMetas vecDists bm25Ids bm25Docs).map
      Prod.fst).Nodup := by
    rw [hkeys]
    exact hndV
  have hgt : (⟨dd, md, 1 - qb⟩ : PoolEntry).score < (⟨db, mb, (1 - qb) + 1/2⟩ : PoolEntry).score := by
    simp only
    linarith
  exact rank_in_take (fusedPool vecIds vecDocs vecMetas vecDists bm25Ids bm25Docs) n
    hkeysnd kb kd ⟨db, mb, (1 - qb) + 1/2⟩ ⟨dd, md, 1 - qb⟩ hlookb hlookd hkbkd hgt

end VideoQueryAI

namespace VideoQueryAI

/-- Witness for C3 at a two-candidate dense set with equal distances, of
which only `b` is a BM25 hit. -/
theorem c3_fusion_boost_witness :
    ((["B", "D"].length = ["b", "d"].length ∧
      [mkMeta 0 RawChunk.blank, mkMeta 0 RawChunk.blank].length = ["b", "d"].length ∧
      [(0 : ℚ), 0].length = ["b", "d"].length ∧
      ["b", "d"].Nodup ∧ ["b"].Nodup ∧ ["B"].length = ["b"].length ∧
      ("b", ("B", (mkMeta 0 RawChunk.blank, (0 : ℚ)))) ∈
        (["b", "d"].zip (["B", "D"].zip
          ([mkMeta 0 RawChunk.blank, mkMeta 0 RawChunk.blank].zip [(0 : ℚ), 0]))) ∧
      "b" ∈ ["b"] ∧
      ("d", ("D", (mkMeta 0 RawChunk.blank, (0 : ℚ)))) ∈
        (["b", "d"].zip (["B", "D"].zip
          ([mkMeta 0 RawChunk.blank, mkMeta 0 RawChunk.blank].zip [(0 : ℚ), 0]))) ∧
      "d" ∉ ["b"] ∧ (0 : ℚ) = 0) ∧
     (dlookup "b" (fusedPool ["b", "d"] ["B", "D"]
        [mkMeta 0 RawChunk.blank, mkMeta 0 RawChunk.blank] [(0 : ℚ), 0] ["b"] ["B"])
        = some ⟨"B", mkMeta 0 RawChunk.blank, (1 - 0) + 1/2⟩ ∧
      (∀ j (hj : j < (searchFusion ["b", "d"] ["B", "D"]
          [mkMeta 0 RawChunk.blank, mkMeta 0 RawChunk.blank] [(0 : ℚ), 0]
          ["b"] ["B"] 3).ids.length),
        (searchFusion ["b", "d"] ["B", "D"]
          [mkMeta 0 RawChunk.blank, mkMeta 0 RawChunk.blank] [(0 : ℚ), 0]
          ["b"] ["B"] 3).ids.get ⟨j, hj⟩ = "d" →
        ∃ i, ∃ hi : i < (searchFusion ["b", "d"] ["B", "D"]
            [mkMeta 0 RawChunk.blank, mkMeta 0 RawChunk.blank] [(0 : ℚ), 0]
            ["b"] ["B"] 3).ids.length,
          i < j ∧ (searchFusion ["b", "d"] ["B", "D"]
            [mkMeta 0 RawChunk.blank, mkMeta 0 RawChunk.blank] [(0 : ℚ), 0]
            ["b"] ["B"] 3).ids.get ⟨i, hi⟩ = "b"))) := by
  refine ⟨⟨by decide, by decide, by decide, by decide, by decide, by decide,
    by decide, by decide, by decide, by decide, rfl⟩, ?_⟩
  exact c3_fusion_boost ["b", "d"] ["B", "D"]
    [mkMeta 0 RawChunk.blank, mkMeta 0 RawChunk.blank] [(0 : ℚ), 0] ["b"] ["B"] 3
    "b" "B" (mkMeta 0 RawChunk.blank) 0 "d" "D" (mkMeta 0 RawChunk.blank) 0
    (by decide) (by decide) (by decide) (by decide) (by decide) (by decide)
    (by decide) (by decide) (by decide) (by decide) rfl

end VideoQueryAI

namespace VideoQueryAI

theorem fusedPool_keys_total (vecIds vecDocs : List String) (vecMetas : List Meta)
    (vecDists : List ℚ) (bm25Ids bm25Docs : List String)
    (hlD : vecDocs.length = vecIds.length) (hlM : vecMetas.length = vecIds.length)
    (hlQ : vecDists.length = vecIds.length)
    (hndV : vecIds.Nodup) (hD : vecDocs ≠ []) :
    (fusedPool vecIds vecDocs vecMetas vecDists bm25Ids bm25Docs).map Prod.fst
      = vecIds := by
  have hqk := quads_keys vecIds vecDocs vecMetas vecDists hlD hlM hlQ
  have hbuild : (buildPool (vecIds.zip (vecDocs.zip (vecMetas.zip vecDists)))).map
      Prod.fst = vecIds := by
    rw [buildPool_eq_of_nodup _ (by rw [hqk]; exact hndV), List.map_map]
    have hcomp : ((Prod.fst : String × PoolEntry → String) ∘
        (fun q : String × String × Meta × ℚ =>
          (q.1, (⟨q.2.1, q.2.2.1, 1 - q.2.2.2⟩ : PoolEntry)))) = Prod.fst := by
      funext q
      rfl
    rw [hcomp]
    exact hqk
  simp only [fusedPool]
  rw [if_neg hD]
  by_cases hB : bm25Docs = []
  · rw [if_pos hB]
    exact hbuild
  · rw [if_neg hB, keys_boostPool]
    exact hbuild

theorem fusedPool_lookup_total (vecIds vecDocs : List String) (vecMetas : List Meta)
    (vecDists : List ℚ) (bm25Ids bm25Docs : List String)
    (hlD : vecDocs.length = vecIds.length) (hlM : vecMetas.length = vecIds.length)
    (hlQ : vecDists.length = vecIds.length)
    (hndV : vecIds.Nodup) (hlB : bm25Docs.length = bm25Ids.length)
    (k0 d0 : String) (m0 : Meta) (q0 : ℚ)
    (hmem : (k0, (d0, (m0, q0))) ∈ vecIds.zip (vecDocs.zip (vecMetas.zip vecDists))) :
    dlookup k0 (fusedPool vecIds vecDocs vecMetas vecDists bm25Ids bm25Docs)
      = some ⟨d0, m0, (1 - q0) + (bm25Ids.count k0 : ℚ) * (1/2)⟩ := by
  by_cases hB : bm25Docs = []
  · have hbm : bm25Ids = [] := by
      rw [hB] at hlB
      exact List.eq_nil_of_length_eq_zero hlB.symm
    have hD : vecDocs ≠ [] := by
      have h2 := (List.of_mem_zip hmem).2
      have h3 := (List.of_mem_zip h2).1
      intro he
      rw [he] at h3
      simp at h3
    have hqk := quads_keys vecIds vecDocs vecMetas vecDists hlD hlM hlQ
    have hfp : fusedPool vecIds vecDocs vecMetas vecDists bm25Ids bm25Docs
        = buildPool (vecIds.zip (vecDocs.zip (vecMetas.zip vecDists))) := by
      simp only [fusedPool]
      rw [if_neg hD, if_pos hB]
    rw [hfp, buildPool_eq_of_nodup _ (by rw [hqk]; exact hndV)]
    have hkeysnd : (((vecIds.zip (vecDocs.zip (vecMetas.zip vecDists))).map
        (fun q => (q.1, (⟨q.2.1, q.2.2.1, 1 - q.2.2.2⟩ : PoolEntry)))).map Prod.fst).Nodup := by
      rw [List.map_map]
      have hcomp : ((Prod.fst : String × PoolEntry → String) ∘
          (fun q : String × String × Meta × ℚ =>
            (q.1, (⟨q.2.1, q.2.2.1, 1 - q.2.2.2⟩ : PoolEntry)))) = Prod.fst := by
        funext q
        rfl
      rw [hcomp, hqk]
      exact hndV
    have hpmem : ((k0, (⟨d0, m0, 1 - q0⟩ : PoolEntry))) ∈
        (vecIds.zip (vecDocs.zip (vecMetas.zip vecDists))).map
          (fun q => (q.1, (⟨q.2.1, q.2.2.1, 1 - q.2.2.2⟩ : PoolEntry))) :=
      List.mem_map.mpr ⟨(k0, (d0, (m0, q0))), hmem, rfl⟩
    rw [dlookup_eq_of_mem hkeysnd hpmem]
    rw [hbm]
    norm_num
  · exact fusedPool_lookup vecIds vecDocs vecMetas vecDists bm25Ids bm25Docs
      hlD hlM hlQ hndV hB k0 d0 m0 q0 hmem

/-- C10: the returned `distances` field of `qa.search_videos` is `1 -`
the final fused score, so for a chunk with cosine distance `q` it equals
`q - 0.5` when the chunk got the BM25 boost and `q` otherwise (first
clause); consequently a boosted chunk with cosine distance below 0.5
yields a negative returned distance (second clause, concrete instance),
and the field is not a guaranteed-non-negative cosine distance. -/
theorem c10_distances
    (vecIds vecDocs : List String) (vecMetas : List Meta) (vecDists : List ℚ)
    (bm25Ids bm25Docs : List String) (n : ℕ)
    (k0 d0 : String) (m0 : Meta) (q0 : ℚ)
    (hlD : vecDocs.length = vecIds.length) (hlM : vecMetas.length = vecIds.length)
    (hlQ : vecDists.length = vecIds.length)
    (hndV : vecIds.Nodup) (hndB : bm25Ids.Nodup)
    (hlB : bm25Docs.length = bm25Ids.length)
    (hmem : (k0, (d0, (m0, q0))) ∈ vecIds.zip (vecDocs.zip (vecMetas.zip vecDists))) :
    (∀ p ∈ (searchFusion vecIds vecDocs vecMetas vecDists bm25Ids bm25Docs n).ids.zip
        (searchFusion vecIds vecDocs vecMetas vecDists bm25Ids bm25Docs n).distances,
      p.1 = k0 → p.2 = q0 - (if k0 ∈ bm25Ids then 1/2 else 0)) ∧
    (searchFusion ["x"] ["dx"] [mkMeta 0 RawChunk.blank] [1/4] ["x"] ["dx"] 3).distances
      = [-(1/4)] := by
  constructor
  · intro p hp hpk
    have hD : vecDocs ≠ [] := by
      have h2 := (List.of_mem_zip hmem).2
      have h3 := (List.of_mem_zip h2).1
      intro he
      rw [he] at h3
      simp at h3
    have hcount : (bm25Ids.count k0 : ℚ) * (1/2)
        = (if k0 ∈ bm25Ids then (1:ℚ)/2 else 0) := by
      by_cases hk : k0 ∈ bm25Ids
      · rw [List.count_eq_one_of_mem hndB hk, if_pos hk]
        norm_num
      · rw [List.count_eq_zero_of_not_mem hk, if_neg hk]
        norm_num
    have hlook := fusedPool_lookup_total vecIds vecDocs vecMetas vecDists bm25Ids bm25Docs
      hlD hlM hlQ hndV hlB k0 d0 m0 q0 hmem
    have hkeysnd : ((fusedPool vecIds vecDocs vecMetas vecDists bm25Ids bm25Docs).map
        Prod.fst).Nodup := by
      rw [fusedPool_keys_total vecIds vecDocs vecMetas vecDists bm25Ids bm25Docs
        hlD hlM hlQ hndV hD]
      exact hndV
    simp only [searchFusion] at hp
    rw [List.zip_map'] at hp
    rcases List.mem_map.mp hp with ⟨q, hq, hpe⟩
    have hqpool : q ∈ fusedPool vecIds vecDocs vecMetas vecDists bm25Ids bm25Docs :=
      (List.perm_insertionSort scoreDesc _).mem_iff.mp (List.mem_of_mem_take hq)
    have hql := dlookup_eq_of_mem hkeysnd hqpool
    have hq1 : q.1 = k0 := by
      rw [← hpe] at hpk
      exact hpk
    rw [hq1, hlook] at hql
    have hq2 : q.2 = ⟨d0, m0, (1 - q0) + (bm25Ids.count k0 : ℚ) * (1/2)⟩ := by
      injection hql with h2
      exact h2.symm
    rw [← hpe]
    simp only [hq2, hcount]
    ring
  · norm_num [searchFusion, fusedPool, buildPool, dictInsert, dlookup, boostPool,
      boostStep, List.insertionSort, List.orderedInsert]

/-- Witness for C10 at a one-candidate dense set that is also a BM25 hit. -/
theorem c10_distances_witness :
    ((["dx"].length = ["x"].length ∧
      [mkMeta 0 RawChunk.blank].length = ["x"].length ∧
      [(0 : ℚ)].length = ["x"].length ∧
      ["x"].Nodup ∧ ["x"].Nodup ∧ ["dx"].length = ["x"].length ∧
      ("x", ("dx", (mkMeta 0 RawChunk.blank, (0 : ℚ)))) ∈
        (["x"].zip (["dx"].zip ([mkMeta 0 RawChunk.blank].zip [(0 : ℚ)])))) ∧
     ((∀ p ∈ (searchFusion ["x"] ["dx"] [mkMeta 0 RawChunk.blank] [(0 : ℚ)]
          ["x"] ["dx"] 3).ids.zip
          (searchFusion ["x"] ["dx"] [mkMeta 0 RawChunk.blank] [(0 : ℚ)]
          ["x"] ["dx"] 3).distances,
        p.1 = "x" → p.2 = 0 - (if "x" ∈ ["x"] then 1/2 else 0)) ∧
      (searchFusion ["x"] ["dx"] [mkMeta 0 RawChunk.blank] [1/4] ["x"] ["dx"] 3).distances
        = [-(1/4)])) := by
  refine ⟨⟨by decide, by decide, by decide, by decide, by decide, by decide, by decide⟩, ?_⟩
  exact c10_distances ["x"] ["dx"] [mkMeta 0 RawChunk.blank] [(0 : ℚ)] ["x"] ["dx"] 3
    "x" "dx" (mkMeta 0 RawChunk.blank) 0
    (by decide) (by decide) (by decide) (by decide) (by decide) (by decide) (by decide)

end VideoQueryAI

namespace VideoQueryAI

/-- C9 counterexample: in `qa.answer_question` (the version the pipeline
imports), a failing LLM call with a non-empty retrieval result yields the
bare string `"Error generating answer: ..."` from the outer exception
handler — not a template answer built from the retrieved chunks. -/
theorem c9_qa_error_string :
    (["rockets are cool"] ≠ ([] : List String)) ∧
    qaAnswerQuestion (Except.error "boom")
      ⟨["id1"], ["rockets are cool"], [mkMeta 0 RawChunk.blank], [0]⟩
      = "Error generating answer: boom" := by
  exact ⟨by decide, by decide⟩

/-- C9 (amended): in the FAISS-backed `faiss_qa.answer_question`, whenever
retrieval returned at least one chunk and the LLM call fails, the response
is the template answer assembled from the top two retrieved chunk texts
plus the citations — never empty and never the bare error string (the
ChromaDB-backed `qa.answer_question` instead returns the bare error
string; see the counterexample). -/
theorem c9_faiss_template (results : FaissSearchResult) (e : String)
    (hne : ¬ results.documents = []) :
    faissAnswerQuestion (Except.error e) results
      = "Based on the video content:\n\n" ++ pyJoin " " (results.documents.take 2)
        ++ "\n\n" ++ eqBar ++ "\nSources:\n" ++ pyJoin "\n" (buildCitationsFaiss results) ∧
    faissAnswerQuestion (Except.error e) results ≠ "" ∧
    faissAnswerQuestion (Except.error e) results ≠ s!"Error generating answer: {e}" := by
  have hmain : faissAnswerQuestion (Except.error e) results
      = "Based on the video content:\n\n" ++ pyJoin " " (results.documents.take 2)
        ++ "\n\n" ++ eqBar ++ "\nSources:\n" ++ pyJoin "\n" (buildCitationsFaiss results) := by
    simp only [faissAnswerQuestion, if_neg hne]
  have hB : (faissAnswerQuestion (Except.error e) results).data.head?
      = "B".data.head? := by
    rw [hmain]
    rfl
  refine ⟨hmain, ?_, ?_⟩
  · intro h0
    rw [h0] at hB
    exact absurd hB (by decide)
  · intro h0
    rw [h0] at hB
    have hE : (s!"Error generating answer: {e}").data.head? = "E".data.head? := rfl
    rw [hE] at hB
    exact absurd hB (by decide)

/-- Witness for C9 (amended) at a two-chunk retrieval result. -/
theorem c9_faiss_template_witness :
    (¬ (FaissSearchResult.mk ["alpha beta", "gamma delta"]
        [mkFaissMeta 0 RawChunk.blank, mkFaissMeta 0 RawChunk.blank]
        ["i1", "i2"] [0, 0]).documents = []) ∧
    (faissAnswerQuestion (Except.error "boom")
        ⟨["alpha beta", "gamma delta"],
         [mkFaissMeta 0 RawChunk.blank, mkFaissMeta 0 RawChunk.blank],
         ["i1", "i2"], [0, 0]⟩
      = "Based on the video content:\n\n"
        ++ pyJoin " " ((["alpha beta", "gamma delta"] : List String).take 2)
        ++ "\n\n" ++ eqBar ++ "\nSources:\n"
        ++ pyJoin "\n" (buildCitationsFaiss
            ⟨["alpha beta", "gamma delta"],
             [mkFaissMeta 0 RawChunk.blank, mkFaissMeta 0 RawChunk.blank],
             ["i1", "i2"], [0, 0]⟩) ∧
     faissAnswerQuestion (Except.error "boom")
        ⟨["alpha beta", "gamma delta"],
         [mkFaissMeta 0 RawChunk.blank, mkFaissMeta 0 RawChunk.blank],
         ["i1", "i2"], [0, 0]⟩ ≠ "" ∧
     faissAnswerQuestion (Except.error "boom")
        ⟨["alpha beta", "gamma delta"],
         [mkFaissMeta 0 RawChunk.blank, mkFaissMeta 0 RawChunk.blank],
         ["i1", "i2"], [0, 0]⟩ ≠ s!"Error generating answer: boom") := by
  refine ⟨by decide, ?_⟩
  exact c9_faiss_template
    ⟨["alpha beta", "gamma delta"],
     [mkFaissMeta 0 RawChunk.blank, mkFaissMeta 0 RawChunk.blank],
     ["i1", "i2"], [0, 0]⟩ "boom" (by decide)

end VideoQueryAI
